import Mathlib

/-!
# Verification of the climate-control decision engine

Shallow embedding of the HVAC zone controller found in `ded.py` and
`grfin.py`.  The two files contain the same control logic
(`ClimateControlApp.control_climate`, `handle_events`, `load_settings`,
`read_temp`, `run`); they differ only in the relay backend (pin-keyed
`gpiod` vs name-keyed `gpiozero`), which is abstracted here into the
`Relay` identifier type.

Temperatures are modelled as rationals (the sensor yields millidegree
integers divided by 1000); setpoints are integers, as in the JSON
configuration.  Relay-command outcomes are modelled by an oracle
`relayOk : Nat -> Bool` indexed by the number of `set_relay` calls made so
far in the cycle, which captures arbitrary per-call success/failure
patterns.  Every relay command issued during a cycle is recorded in a log
so that "actuator X was commanded OFF this cycle" is expressible.
-/

namespace Climate

/-- The five rooms of `sensor_ids` / `DEFAULT_SETTINGS`, in iteration
order. -/
inductive RoomId
  | room1 | room2 | room3 | room4 | room5
  deriving DecidableEq, Repr

/-- Iteration order of `sensor_ids.items()` (Python dicts preserve
insertion order). -/
def ROOMS : List RoomId := [.room1, .room2, .room3, .room4, .room5]

/-- Per-room persisted configuration, one entry of `self.settings`. -/
structure RoomConfig where
  min_temp : Int
  max_temp : Int
  manual_heat : Bool
  manual_cool : Bool
  deriving DecidableEq, Repr

/-- Per-room runtime flags, one entry of `self.room_states`. -/
structure RoomState where
  cooling : Bool
  heating : Bool
  deriving DecidableEq, Repr

/-- The actuators of `RELAY_PINS`: the three shared relays plus one relay
per room (pin-keyed in `ded.py`, name-keyed in `grfin.py`). -/
inductive Relay
  | ac | heater_vent | supply
  | roomRelay (r : RoomId)
  deriving DecidableEq, Repr

/-- The inputs one `control_climate` pass reads: the settings dict, the
`self.temperatures` snapshot, and the outcome of each successive
`set_relay` call. -/
structure CycleEnv where
  settings : RoomId → RoomConfig
  temps : RoomId → Option ℚ
  relayOk : ℕ → Bool

/-- Mutable data threaded through one `control_climate` pass:
`self.room_states`, the number of `set_relay` calls made so far, and the
log of commands issued (actuator, desired state). -/
structure CycleM where
  states : RoomId → RoomState
  calls : ℕ
  log : List (Relay × Bool)

/-- `self.room_states` as built in `__init__`: all flags `False`. -/
def initRoomStates : RoomId → RoomState := fun _ => ⟨false, false⟩

/-- One `set_relay(relay, state)` call: records the command and reports
the oracle's outcome for this call. -/
def setRelay (env : CycleEnv) (r : Relay) (b : Bool) (m : CycleM) :
    Bool × CycleM :=
  (env.relayOk m.calls,
   { m with calls := m.calls + 1, log := m.log ++ [(r, b)] })

/-- A chain `set_relay(..) and set_relay(..) and ...`: Python `and`
short-circuits, so commands after the first failure are not issued.
Returns the machine after the issued calls and whether all succeeded. -/
def issueAll (env : CycleEnv) (m : CycleM) :
    List (Relay × Bool) → CycleM × Bool
  | [] => (m, true)
  | c :: cs =>
    let p := setRelay env c.1 c.2 m
    if p.1 then issueAll env p.2 cs else (p.2, false)

/-- The body of the per-room loop of `control_climate` (ded.py 321-364,
grfin.py 455-504): the `if temp is None: continue` guard followed by the
manual / automatic `elif` chain.  Returns the machine after any relay
calls together with the room's new state flags. -/
def roomStep (env : CycleEnv) (room : RoomId) (m : CycleM) :
    CycleM × RoomState :=
  let st := m.states room
  match env.temps room with
  | none => (m, st)
  | some temp =>
    let cfg := env.settings room
    if cfg.manual_heat = true then
      if st.heating = true then (m, st)
      else
        let p := issueAll env m
          [(.roomRelay room, true), (.heater_vent, true), (.supply, true)]
        (p.1, if p.2 then ⟨false, true⟩ else st)
    else if cfg.manual_cool = true then
      if st.cooling = true then (m, st)
      else
        let p := issueAll env m [(.roomRelay room, true), (.ac, true)]
        (p.1, if p.2 then ⟨true, false⟩ else st)
    else if temp > (cfg.max_temp : ℚ) ∧ st.cooling = false then
      let p := issueAll env m [(.roomRelay room, true), (.ac, true)]
      (p.1, if p.2 then ⟨true, false⟩ else st)
    else if temp ≤ ((cfg.max_temp - 3 : Int) : ℚ) ∧ st.cooling = true then
      let p := issueAll env m [(.roomRelay room, false)]
      (p.1, if p.2 then { st with cooling := false } else st)
    else if temp < (cfg.min_temp : ℚ) ∧ st.heating = false then
      let p := issueAll env m
        [(.roomRelay room, true), (.heater_vent, true), (.supply, true)]
      (p.1, if p.2 then ⟨false, true⟩ else st)
    else if temp ≥ ((cfg.min_temp + 3 : Int) : ℚ) ∧ st.heating = true then
      let p := issueAll env m [(.roomRelay room, false)]
      (p.1, if p.2 then { st with heating := false } else st)
    else (m, st)

/-- One room's iteration of the loop: run `roomStep` and store the new
flags in `self.room_states[room]`. -/
def evalRoom (env : CycleEnv) (room : RoomId) (m : CycleM) : CycleM :=
  let p := roomStep env room m
  { p.1 with states := fun x => if x = room then p.2 else p.1.states x }

/-- The per-room loop over all rooms. -/
def foldRooms (env : CycleEnv) (l : List RoomId) (m : CycleM) : CycleM :=
  l.foldl (fun m r => evalRoom env r m) m

/-- One full `control_climate` pass (the code guarded by the 10-second
timer): evaluate every room, then the shared-actuator consolidation —
AC OFF if no room is cooling, heater vent and supply OFF if no room is
heating (ded.py 366-373, grfin.py 506-516). -/
def controlCycle (env : CycleEnv) (init : RoomId → RoomState) : CycleM :=
  let m := foldRooms env ROOMS ⟨init, 0, []⟩
  let m1 := if ROOMS.all (fun r => !(m.states r).cooling)
    then (setRelay env .ac false m).2 else m
  if ROOMS.all (fun r => !(m1.states r).heating)
    then (setRelay env .supply false (setRelay env .heater_vent false m1).2).2
    else m1

/-- The six transition rules of the `control_climate` branch chain that
issue relay commands. -/
inductive Rule
  | manualHeat | manualCool | coolOn | coolOff | heatOn | heatOff
  deriving DecidableEq, Repr

/-- Which rule (if any) issues relay commands for a room, given that
room's current flags: the guard structure of the branch chain.  `none`
means the room is skipped (no reading), already in the manually requested
state, or inside its dead band. -/
def firedRule (env : CycleEnv) (room : RoomId) (st : RoomState) :
    Option Rule :=
  match env.temps room with
  | none => none
  | some temp =>
    let cfg := env.settings room
    if cfg.manual_heat = true then
      if st.heating = true then none else some .manualHeat
    else if cfg.manual_cool = true then
      if st.cooling = true then none else some .manualCool
    else if temp > (cfg.max_temp : ℚ) ∧ st.cooling = false then
      some .coolOn
    else if temp ≤ ((cfg.max_temp - 3 : Int) : ℚ) ∧ st.cooling = true then
      some .coolOff
    else if temp < (cfg.min_temp : ℚ) ∧ st.heating = false then
      some .heatOn
    else if temp ≥ ((cfg.min_temp + 3 : Int) : ℚ) ∧ st.heating = true then
      some .heatOff
    else none

/-- A rule's action sequence: the relay commands it issues, in order. -/
def ruleCmds (rule : Rule) (room : RoomId) : List (Relay × Bool) :=
  match rule with
  | .manualHeat =>
    [(.roomRelay room, true), (.heater_vent, true), (.supply, true)]
  | .manualCool => [(.roomRelay room, true), (.ac, true)]
  | .coolOn => [(.roomRelay room, true), (.ac, true)]
  | .coolOff => [(.roomRelay room, false)]
  | .heatOn =>
    [(.roomRelay room, true), (.heater_vent, true), (.supply, true)]
  | .heatOff => [(.roomRelay room, false)]

/-- The flags a rule commits when its whole action sequence succeeds. -/
def ruleTarget (rule : Rule) (st : RoomState) : RoomState :=
  match rule with
  | .manualHeat => ⟨false, true⟩
  | .manualCool => ⟨true, false⟩
  | .coolOn => ⟨true, false⟩
  | .coolOff => { st with cooling := false }
  | .heatOn => ⟨false, true⟩
  | .heatOff => { st with heating := false }

/-! ## Settings-screen edits (handle_events, ded.py 272-307 /
grfin.py 406-441) -/

/-- The six edits the settings screen can produce for the selected
room. -/
inductive EditAction
  | incMin | decMin | incMax | decMax | toggleHeat | toggleCool
  deriving DecidableEq, Repr

/-- Effect of one accepted settings-screen click on the selected room's
configuration.  The `+= 1` / `-= 1` branches perform no validation; the
manual-toggle branches clear the opposite flag when the toggled flag
becomes true. -/
def applyEdit (e : EditAction) (c : RoomConfig) : RoomConfig :=
  match e with
  | .incMin => { c with min_temp := c.min_temp + 1 }
  | .decMin => { c with min_temp := c.min_temp - 1 }
  | .incMax => { c with max_temp := c.max_temp + 1 }
  | .decMax => { c with max_temp := c.max_temp - 1 }
  | .toggleHeat =>
    let c1 := { c with manual_heat := !c.manual_heat }
    if c1.manual_heat = true then { c1 with manual_cool := false } else c1
  | .toggleCool =>
    let c1 := { c with manual_cool := !c.manual_cool }
    if c1.manual_cool = true then { c1 with manual_heat := false } else c1

/-! ## Settings load (load_settings, ded.py 50-55 / grfin.py 59-64) -/

/-- `DEFAULT_SETTINGS`: every room gets min 20, max 25, manual flags
clear. -/
def defaultSettings : RoomId → RoomConfig := fun _ => ⟨20, 25, false, false⟩

/-- The contents of `climate_settings.json` as parsed: a mapping that may
lack some rooms.  `loadSettings` takes the parse outcome: `none` when the
file is missing or malformed (any exception), `some s` when `json.load`
succeeded with mapping `s`. -/
def loadSettings (parsed : Option (RoomId → Option RoomConfig)) :
    RoomId → Option RoomConfig :=
  match parsed with
  | none => fun r => some (defaultSettings r)
  | some s => s

/-! ## Shutdown (end of run, ded.py 393-403 / grfin.py 536-541)

After the main loop exits, the code calls `save_settings(self.settings)`
— which has no exception handler — and then commands every relay OFF.
`shutdownRelayCmds` returns the relay commands the cleanup issues:
`none` means the save raised and the exception propagated before any
relay command was issued. -/

/-- The full relay list of `RELAY_PINS` / `relay_devices`, in
insertion order. -/
def allRelays : List Relay :=
  [.ac, .heater_vent, .roomRelay .room3, .roomRelay .room2,
   .roomRelay .room1, .supply, .roomRelay .room4, .roomRelay .room5]

/-- Relay commands issued by the cleanup code after the main loop, as a
function of whether `save_settings` succeeded. -/
def shutdownRelayCmds (saveOk : Bool) : Option (List (Relay × Bool)) :=
  if saveOk = true then some (allRelays.map (fun r => (r, false)))
  else none

/-! ## Temperature source (read_temp, ded.py 69-88 / grfin.py 78-97)

The device file is modelled as a sequence `seq : Nat -> Option (List
String)` giving the lines returned by the k-th `read_temp_raw` call
(`none` = open/read failed).  The `while` loop that waits for the `YES`
readiness flag has no bound in the source; it is unfolded here with a
fuel argument: `none` as outer result means the loop is still retrying
(sleeping 0.2 s per iteration) after `fuel` reads. -/

/-- `lines[0].strip()[-3:] == 'YES'`: the readiness check on the first
line, computed on its character list — strip whitespace from both ends,
take the last three characters, compare with `YES`. -/
def w1Ready (lines : List String) : Bool :=
  match lines.head? with
  | none => false
  | some l =>
    let s := ((l.data.dropWhile Char.isWhitespace).reverse.dropWhile
      Char.isWhitespace).reverse
    (s.reverse.take 3).reverse == ['Y', 'E', 'S']

/-- The parse of the second line: text after `t=` read as millidegrees
over 1000 (the w1 format carries an integer; Python's `float(...)` of it
divided by 1000.0 is this rational).  Any failure — missing second line,
no `t=` marker, unparsable number — returns `none`, as the bare
`return None` / exception handler does. -/
def parseTemp (lines : List String) : Option ℚ :=
  match lines.get? 1 with
  | none => none
  | some l =>
    match (l.splitOn "t=").tail.head? with
    | none => none
    | some rest =>
      match rest.trim.toInt? with
      | none => none
      | some n => some ((n : ℚ) / 1000)

/-- The readiness-retry loop of `read_temp`, reading at positions `k`,
`k+1`, ... of the device sequence.  Outer `none`: still looping after
`fuel` reads; `some r`: the function returned `r` (inner `none` is the
"unavailable" result). -/
def readTempAux (seq : ℕ → Option (List String)) :
    ℕ → ℕ → Option (Option ℚ)
  | _, 0 => none
  | k, fuel + 1 =>
    match seq k with
    | none => some none
    | some [] => some none
    | some lines =>
      if w1Ready lines then some (parseTemp lines)
      else readTempAux seq (k + 1) fuel

/-- `read_temp`: first read at position 0 of the device sequence. -/
def read_temp (seq : ℕ → Option (List String)) (fuel : ℕ) :
    Option (Option ℚ) :=
  readTempAux seq 0 fuel

/-! ## Concrete scenarios

Closed inputs used to evaluate the engine on specific situations. -/

/-- room1 has `manual_heat` set; no sensor delivers a reading; every
relay command succeeds. -/
def envManualNoReading : CycleEnv :=
  { settings := fun r =>
      if r = .room1 then ⟨20, 25, true, false⟩ else defaultSettings r
    temps := fun _ => none
    relayOk := fun _ => true }

/-- room1 has `manual_heat` set and a reading of 22 °C; every other room
has default settings and no reading; every relay command succeeds. -/
def envManual : CycleEnv :=
  { settings := fun r =>
      if r = .room1 then ⟨20, 25, true, false⟩ else defaultSettings r
    temps := fun r => if r = .room1 then some 22 else none
    relayOk := fun _ => true }

/-- room1 configured with the narrow band min 20 / max 21 (satisfying
`min_temp < max_temp`), reading 19 °C, no manual flags; other rooms have
defaults and no reading; every relay command succeeds. -/
def envNarrowBand : CycleEnv :=
  { settings := fun r =>
      if r = .room1 then ⟨20, 21, false, false⟩ else defaultSettings r
    temps := fun r => if r = .room1 then some 19 else none
    relayOk := fun _ => true }

/-- room1 with default setpoints and a reading of 24 °C (inside the
cooling hysteresis band 22 < t ≤ 25); every relay command succeeds. -/
def envInBand : CycleEnv :=
  { settings := fun _ => defaultSettings .room1
    temps := fun r => if r = .room1 then some 24 else none
    relayOk := fun _ => true }

/-- room1 currently cooling, every other room idle. -/
def initCooling : RoomId → RoomState :=
  fun r => if r = .room1 then ⟨true, false⟩ else ⟨false, false⟩

/-- room1 with default setpoints and a reading of 30 °C (above
`max_temp`), but every relay command fails. -/
def envRelayFail : CycleEnv :=
  { settings := fun _ => defaultSettings .room1
    temps := fun r => if r = .room1 then some 30 else none
    relayOk := fun _ => false }

/-- A fresh cycle machine: initial flags, no calls made, empty log. -/
def mFresh : CycleM := ⟨initRoomStates, 0, []⟩

/-- A parsed `climate_settings.json` that contains only room1: the other
four built-in rooms are absent from the file. -/
def partialLoaded : RoomId → Option RoomConfig :=
  fun r => if r = .room1 then some ⟨18, 22, false, false⟩ else none

/-- A sensor device file that is always readable but whose readiness
flag never reads `YES` (a permanently not-ready DS18B20). -/
def stubbornSeq : ℕ → Option (List String) :=
  fun _ => some ["crc=d8 NO", "t=21000"]

/-- A logged command that turns an actuator OFF targets a per-room
relay.  This holds for every command issued inside the per-room loop
(shared actuators are only ever turned ON there); an OFF command for a
shared actuator can therefore only come from the consolidation step. -/
def offOnlyRoomRelay (c : Relay × Bool) : Prop :=
  c.2 = false → ∃ r, c.1 = Relay.roomRelay r

/-- At most one of the two runtime flags is set. -/
@[reducible]
def flagsMutex (s : RoomState) : Prop :=
  (s.cooling && s.heating) = false

/-! ## Basic lemmas about the cycle machinery -/

theorem setRelay_states (env : CycleEnv) (r : Relay) (b : Bool)
    (m : CycleM) : (setRelay env r b m).2.states = m.states := rfl

theorem setRelay_calls (env : CycleEnv) (r : Relay) (b : Bool)
    (m : CycleM) : (setRelay env r b m).2.calls = m.calls + 1 := rfl

theorem setRelay_log (env : CycleEnv) (r : Relay) (b : Bool)
    (m : CycleM) : (setRelay env r b m).2.log = m.log ++ [(r, b)] := rfl

theorem issueAll_states (env : CycleEnv) :
    ∀ (cmds : List (Relay × Bool)) (m : CycleM),
      (issueAll env m cmds).1.states = m.states := by
  intro cmds
  induction cmds with
  | nil => intro m; rfl
  | cons c cs ih =>
    intro m
    simp only [issueAll]
    by_cases h : (setRelay env c.1 c.2 m).1 = true
    · rw [if_pos h]
      exact ih (setRelay env c.1 c.2 m).2
    · rw [if_neg h]
      rfl

/-- `issueAll` succeeds exactly when the oracle grants every call of the
sequence, at consecutive indices starting from the current call count. -/
theorem issueAll_ok_iff (env : CycleEnv) :
    ∀ (cmds : List (Relay × Bool)) (m : CycleM),
      (issueAll env m cmds).2 = true ↔
        ∀ i, i < cmds.length → env.relayOk (m.calls + i) = true := by
  intro cmds
  induction cmds with
  | nil =>
    intro m
    simp [issueAll]
  | cons c cs ih =>
    intro m
    simp only [issueAll]
    by_cases h : (setRelay env c.1 c.2 m).1 = true
    · have h' : env.relayOk m.calls = true := h
      rw [if_pos h]
      rw [ih (setRelay env c.1 c.2 m).2]
      have hcalls : (setRelay env c.1 c.2 m).2.calls = m.calls + 1 := rfl
      rw [hcalls]
      constructor
      · intro hall i hi
        match i with
        | 0 => exact h'
        | j + 1 =>
          have hj : j < cs.length := by
            simpa using Nat.lt_of_succ_lt_succ (by simpa using hi)
          have := hall j hj
          have harith : m.calls + 1 + j = m.calls + (j + 1) := by omega
          rw [harith] at this
          exact this
      · intro hall j hj
        have := hall (j + 1) (by simpa using Nat.succ_lt_succ hj)
        have harith : m.calls + (j + 1) = m.calls + 1 + j := by omega
        rw [harith] at this
        exact this
    · rw [if_neg h]
      show false = true ↔ _
      constructor
      · intro hfalse
        exact absurd hfalse (by simp)
      · intro hall
        exact absurd (hall 0 (by simp)) h

theorem issueAll_ok_of_allOk (env : CycleEnv) (cmds : List (Relay × Bool))
    (m : CycleM) (h : ∀ n, env.relayOk n = true) :
    (issueAll env m cmds).2 = true :=
  (issueAll_ok_iff env cmds m).mpr (fun i _ => h (m.calls + i))

/-- Any predicate holding on the pre-existing log and on every command of
the sequence holds on the log after `issueAll`. -/
theorem issueAll_log_pred (env : CycleEnv) (Q : Relay × Bool → Prop) :
    ∀ (cmds : List (Relay × Bool)) (m : CycleM),
      (∀ c ∈ cmds, Q c) → (∀ c ∈ m.log, Q c) →
      ∀ c ∈ (issueAll env m cmds).1.log, Q c := by
  intro cmds
  induction cmds with
  | nil => intro m _ hm; exact hm
  | cons c cs ih =>
    intro m hc hm
    simp only [issueAll]
    have hm' : ∀ x ∈ (setRelay env c.1 c.2 m).2.log, Q x := by
      intro x hx
      rw [setRelay_log] at hx
      rcases List.mem_append.mp hx with hx | hx
      · exact hm x hx
      · rcases List.mem_singleton.mp hx with rfl
        exact hc c (by simp)
    by_cases h : (setRelay env c.1 c.2 m).1 = true
    · rw [if_pos h]
      exact ih (setRelay env c.1 c.2 m).2 (fun x hx => hc x (by simp [hx])) hm'
    · rw [if_neg h]
      exact hm'

/-- The per-room branch chain, characterised through the fired rule: if
no rule fires the machine and flags are untouched; if a rule fires, its
action sequence is issued with short-circuiting, and the rule's target
flags are committed exactly when the whole sequence succeeded. -/
theorem roomStep_eq (env : CycleEnv) (room : RoomId) (m : CycleM) :
    roomStep env room m =
      match firedRule env room (m.states room) with
      | none => (m, m.states room)
      | some rule =>
        let p := issueAll env m (ruleCmds rule room)
        (p.1, if p.2 then ruleTarget rule (m.states room)
              else m.states room) := by
  unfold roomStep firedRule
  cases htemp : env.temps room with
  | none => rfl
  | some temp =>
    dsimp only
    by_cases h1 : (env.settings room).manual_heat = true
    · rw [if_pos h1, if_pos h1]
      by_cases h2 : (m.states room).heating = true
      · rw [if_pos h2, if_pos h2]
      · rw [if_neg h2, if_neg h2]
        rfl
    · rw [if_neg h1, if_neg h1]
      by_cases h3 : (env.settings room).manual_cool = true
      · rw [if_pos h3, if_pos h3]
        by_cases h4 : (m.states room).cooling = true
        · rw [if_pos h4, if_pos h4]
        · rw [if_neg h4, if_neg h4]
          rfl
      · rw [if_neg h3, if_neg h3]
        by_cases h5 : temp > ((env.settings room).max_temp : ℚ) ∧
            (m.states room).cooling = false
        · rw [if_pos h5, if_pos h5]
          rfl
        · rw [if_neg h5, if_neg h5]
          by_cases h6 : temp ≤ (((env.settings room).max_temp - 3 : Int) : ℚ) ∧
              (m.states room).cooling = true
          · rw [if_pos h6, if_pos h6]
            rfl
          · rw [if_neg h6, if_neg h6]
            by_cases h7 : temp < ((env.settings room).min_temp : ℚ) ∧
                (m.states room).heating = false
            · rw [if_pos h7, if_pos h7]
              rfl
            · rw [if_neg h7, if_neg h7]
              by_cases h8 : temp ≥ (((env.settings room).min_temp + 3 : Int) : ℚ) ∧
                  (m.states room).heating = true
              · rw [if_pos h8, if_pos h8]
                rfl
              · rw [if_neg h8, if_neg h8]

theorem roomStep_fst_states (env : CycleEnv) (room : RoomId) (m : CycleM) :
    (roomStep env room m).1.states = m.states := by
  rw [roomStep_eq]
  cases firedRule env room (m.states room) with
  | none => rfl
  | some rule => exact issueAll_states env (ruleCmds rule room) m

theorem evalRoom_states (env : CycleEnv) (room : RoomId) (m : CycleM)
    (x : RoomId) :
    (evalRoom env room m).states x =
      if x = room then (roomStep env room m).2 else m.states x := by
  unfold evalRoom
  dsimp only
  by_cases h : x = room
  · rw [if_pos h, if_pos h]
  · rw [if_neg h, if_neg h, roomStep_fst_states]

theorem foldRooms_cons (env : CycleEnv) (r : RoomId) (l : List RoomId)
    (m : CycleM) :
    foldRooms env (r :: l) m = foldRooms env l (evalRoom env r m) := rfl

theorem foldRooms_append (env : CycleEnv) (l1 l2 : List RoomId)
    (m : CycleM) :
    foldRooms env (l1 ++ l2) m = foldRooms env l2 (foldRooms env l1 m) := by
  unfold foldRooms
  exact List.foldl_append _ _ l1 l2

theorem foldRooms_states_not_mem (env : CycleEnv) :
    ∀ (l : List RoomId) (m : CycleM) {x : RoomId}, x ∉ l →
      (foldRooms env l m).states x = m.states x := by
  intro l
  induction l with
  | nil => intro m x _; rfl
  | cons r rs ih =>
    intro m x hx
    rw [foldRooms_cons]
    have hxr : x ≠ r := fun hh => hx (by simp [hh])
    rw [ih _ (fun hh => hx (by simp [hh]))]
    rw [evalRoom_states, if_neg hxr]

/-- Consolidation issues shared-actuator commands but never touches the
room flags: the cycle's final flags are the flags after the per-room
loop. -/
theorem controlCycle_states (env : CycleEnv) (init : RoomId → RoomState) :
    (controlCycle env init).states =
      (foldRooms env ROOMS ⟨init, 0, []⟩).states := by
  unfold controlCycle
  dsimp only
  split <;> split <;> rfl

theorem mem_ROOMS (r : RoomId) : r ∈ ROOMS := by
  cases r <;> decide

theorem ROOMS_split (r : RoomId) :
    ∃ l1 l2, ROOMS = l1 ++ r :: l2 ∧ r ∉ l1 ∧ r ∉ l2 := by
  cases r
  · exact ⟨[], [.room2, .room3, .room4, .room5], by decide⟩
  · exact ⟨[.room1], [.room3, .room4, .room5], by decide⟩
  · exact ⟨[.room1, .room2], [.room4, .room5], by decide⟩
  · exact ⟨[.room1, .room2, .room3], [.room5], by decide⟩
  · exact ⟨[.room1, .room2, .room3, .room4], [], by decide⟩

/-- Each room's final flags are produced by its own `roomStep`, run on a
machine in which that room's flags are still the cycle's initial ones
(earlier rooms of the loop never touch another room's slot). -/
theorem cycle_states_char (env : CycleEnv) (init : RoomId → RoomState)
    (r : RoomId) :
    ∃ m : CycleM, m.states r = init r ∧
      (controlCycle env init).states r = (roomStep env r m).2 := by
  obtain ⟨l1, l2, hsp, h1, h2⟩ := ROOMS_split r
  refine ⟨foldRooms env l1 ⟨init, 0, []⟩, ?_, ?_⟩
  · exact foldRooms_states_not_mem env l1 _ h1
  · have hs := controlCycle_states env init
    rw [show (controlCycle env init).states r =
      (foldRooms env ROOMS ⟨init, 0, []⟩).states r from congrFun hs r]
    rw [hsp, foldRooms_append, foldRooms_cons]
    rw [foldRooms_states_not_mem env l2 _ h2]
    rw [evalRoom_states, if_pos rfl]

/-- Every command of every rule's action sequence satisfies
`offOnlyRoomRelay`: the per-room branches only switch shared actuators
ON. -/
theorem ruleCmds_offOnly (rule : Rule) (room : RoomId) :
    ∀ c ∈ ruleCmds rule room, offOnlyRoomRelay c := by
  intro c hc
  cases rule with
  | manualHeat =>
    simp only [ruleCmds, List.mem_cons, List.not_mem_nil, or_false] at hc
    rcases hc with rfl | rfl | rfl <;> exact fun h => Bool.noConfusion h
  | manualCool =>
    simp only [ruleCmds, List.mem_cons, List.not_mem_nil, or_false] at hc
    rcases hc with rfl | rfl <;> exact fun h => Bool.noConfusion h
  | coolOn =>
    simp only [ruleCmds, List.mem_cons, List.not_mem_nil, or_false] at hc
    rcases hc with rfl | rfl <;> exact fun h => Bool.noConfusion h
  | coolOff =>
    simp only [ruleCmds, List.mem_cons, List.not_mem_nil, or_false] at hc
    rcases hc with rfl
    exact fun _ => ⟨room, rfl⟩
  | heatOn =>
    simp only [ruleCmds, List.mem_cons, List.not_mem_nil, or_false] at hc
    rcases hc with rfl | rfl | rfl <;> exact fun h => Bool.noConfusion h
  | heatOff =>
    simp only [ruleCmds, List.mem_cons, List.not_mem_nil, or_false] at hc
    rcases hc with rfl
    exact fun _ => ⟨room, rfl⟩

theorem roomStep_log_pred (env : CycleEnv) (room : RoomId) (m : CycleM)
    (h : ∀ c ∈ m.log, offOnlyRoomRelay c) :
    ∀ c ∈ (roomStep env room m).1.log, offOnlyRoomRelay c := by
  rw [roomStep_eq]
  cases firedRule env room (m.states room) with
  | none => exact h
  | some rule =>
    dsimp only
    exact issueAll_log_pred env offOnlyRoomRelay (ruleCmds rule room) m
      (ruleCmds_offOnly rule room) h

theorem evalRoom_log (env : CycleEnv) (room : RoomId) (m : CycleM) :
    (evalRoom env room m).log = (roomStep env room m).1.log := rfl

theorem foldRooms_log_pred (env : CycleEnv) :
    ∀ (l : List RoomId) (m : CycleM),
      (∀ c ∈ m.log, offOnlyRoomRelay c) →
      ∀ c ∈ (foldRooms env l m).log, offOnlyRoomRelay c := by
  intro l
  induction l with
  | nil => intro m h; exact h
  | cons r rs ih =>
    intro m h
    rw [foldRooms_cons]
    refine ih _ ?_
    rw [evalRoom_log]
    exact roomStep_log_pred env r m h

/-- The cycle's log is the per-room loop's log followed by the
consolidation commands, each present exactly when its all-rooms
condition held after the loop. -/
theorem controlCycle_log (env : CycleEnv) (init : RoomId → RoomState) :
    (controlCycle env init).log =
      (foldRooms env ROOMS ⟨init, 0, []⟩).log
        ++ (if ROOMS.all
              (fun r => !((foldRooms env ROOMS ⟨init, 0, []⟩).states r).cooling)
            then [(Relay.ac, false)] else [])
        ++ (if ROOMS.all
              (fun r => !((foldRooms env ROOMS ⟨init, 0, []⟩).states r).heating)
            then [(Relay.heater_vent, false), (Relay.supply, false)]
            else []) := by
  unfold controlCycle
  dsimp only
  by_cases hc : ROOMS.all
      (fun r => !((foldRooms env ROOMS ⟨init, 0, []⟩).states r).cooling) = true
  · rw [if_pos hc, if_pos hc]
    simp only [setRelay_states]
    by_cases hh : ROOMS.all
        (fun r => !((foldRooms env ROOMS ⟨init, 0, []⟩).states r).heating) = true
    · rw [if_pos hh, if_pos hh]
      simp [setRelay_log, List.append_assoc]
    · rw [if_neg hh, if_neg hh]
      simp [setRelay_log]
  · rw [if_neg hc, if_neg hc]
    by_cases hh : ROOMS.all
        (fun r => !((foldRooms env ROOMS ⟨init, 0, []⟩).states r).heating) = true
    · rw [if_pos hh, if_pos hh]
      simp [setRelay_log, List.append_assoc]
    · rw [if_neg hh, if_neg hh]
      simp

theorem all_ROOMS_iff (p : RoomId → Bool) :
    ROOMS.all p = true ↔ ∀ r, p r = true := by
  rw [List.all_eq_true]
  exact ⟨fun h r => h r (mem_ROOMS r), fun h r _ => h r⟩

theorem firedRule_no_temp (env : CycleEnv) (room : RoomId) (st : RoomState)
    (h : env.temps room = none) : firedRule env room st = none := by
  unfold firedRule
  rw [h]

/-! ## The claims -/

/-- C10: a room whose reading is absent and whose manual flags are both
clear is skipped by the control cycle: its flags are unchanged and its
rule evaluation issues no relay command (the machine is returned
untouched). -/
theorem missing_reading_skip (env : CycleEnv) (init : RoomId → RoomState)
    (room : RoomId) (hnone : env.temps room = none)
    (hmh : (env.settings room).manual_heat = false)
    (hmc : (env.settings room).manual_cool = false) :
    (controlCycle env init).states room = init room ∧
    ∀ m : CycleM, roomStep env room m = (m, m.states room) := by
  have hstep : ∀ m : CycleM, roomStep env room m = (m, m.states room) := by
    intro m
    rw [roomStep_eq, firedRule_no_temp env room _ hnone]
  constructor
  · obtain ⟨m, hm, hcyc⟩ := cycle_states_char env init room
    rw [hcyc, hstep m, hm]
  · exact hstep

/-- C10 witness: room2 of `envManualNoReading` has no reading and no
manual flag, and indeed keeps its initial flags across a concrete
cycle. -/
theorem missing_reading_skip_witness :
    (controlCycle envManualNoReading initRoomStates).states RoomId.room2 =
      initRoomStates RoomId.room2 :=
  (missing_reading_skip envManualNoReading initRoomStates RoomId.room2
    rfl rfl rfl).1

/-- C1 counterexample: room1 has `manual_heat = true`, its reading is
absent, and every relay command of the cycle succeeds (the oracle is
constantly true), yet after the control cycle room1 is not Heating: the
`temp is None` guard skips the room before the manual branch is
reached. -/
theorem manual_heat_without_reading_cex :
    (envManualNoReading.settings RoomId.room1).manual_heat = true ∧
    envManualNoReading.temps RoomId.room1 = none ∧
    ((controlCycle envManualNoReading initRoomStates).states
        RoomId.room1).heating = false := by
  decide

/-- C1 (amended): a manual request is honored only when a reading is
present.  A room whose reading is absent keeps its flags even when a
manual flag is set; when a reading is present and every relay command
succeeds, a `manual_heat` room ends the cycle Heating and a
`manual_cool` room (with `manual_heat` clear) ends it Cooling. -/
theorem manual_request_needs_reading (env : CycleEnv)
    (init : RoomId → RoomState) (room : RoomId)
    (hok : ∀ n, env.relayOk n = true) :
    (env.temps room = none →
      (controlCycle env init).states room = init room) ∧
    (∀ t : ℚ, env.temps room = some t →
      (env.settings room).manual_heat = true →
      ((controlCycle env init).states room).heating = true) ∧
    (∀ t : ℚ, env.temps room = some t →
      (env.settings room).manual_heat = false →
      (env.settings room).manual_cool = true →
      ((controlCycle env init).states room).cooling = true) := by
  obtain ⟨m, hm, hcyc⟩ := cycle_states_char env init room
  refine ⟨?_, ?_, ?_⟩
  · intro hnone
    rw [hcyc, roomStep_eq, firedRule_no_temp env room _ hnone]
    exact hm
  · intro t ht hmh
    rw [hcyc, roomStep_eq]
    by_cases hh : (m.states room).heating = true
    · have hfr : firedRule env room (m.states room) = none := by
        unfold firedRule
        rw [ht]
        dsimp only
        rw [if_pos hmh, if_pos hh]
      rw [hfr]
      exact hh
    · have hfr : firedRule env room (m.states room) = some .manualHeat := by
        unfold firedRule
        rw [ht]
        dsimp only
        rw [if_pos hmh, if_neg hh]
      rw [hfr]
      dsimp only
      rw [if_pos (issueAll_ok_of_allOk env _ m hok)]
      rfl
  · intro t ht hmh hmc
    rw [hcyc, roomStep_eq]
    have hmh' : ¬ (env.settings room).manual_heat = true := by
      rw [hmh]
      exact Bool.noConfusion
    by_cases hc : (m.states room).cooling = true
    · have hfr : firedRule env room (m.states room) = none := by
        unfold firedRule
        rw [ht]
        dsimp only
        rw [if_neg hmh', if_pos hmc, if_pos hc]
      rw [hfr]
      exact hc
    · have hfr : firedRule env room (m.states room) = some .manualCool := by
        unfold firedRule
        rw [ht]
        dsimp only
        rw [if_neg hmh', if_pos hmc, if_neg hc]
      rw [hfr]
      dsimp only
      rw [if_pos (issueAll_ok_of_allOk env _ m hok)]
      rfl

/-- C1 witness: in `envManual`, room2 (no reading) keeps its flags while
room1 (manual heat, reading 22 °C, all relays succeeding) ends the cycle
Heating. -/
theorem manual_request_needs_reading_witness :
    (controlCycle envManual initRoomStates).states RoomId.room2 =
      initRoomStates RoomId.room2 ∧
    ((controlCycle envManual initRoomStates).states RoomId.room1).heating =
      true :=
  ⟨(manual_request_needs_reading envManual initRoomStates RoomId.room2
      (fun _ => rfl)).1 rfl,
   (manual_request_needs_reading envManual initRoomStates RoomId.room1
      (fun _ => rfl)).2.1 22 rfl rfl⟩

/-- C2: the runtime flags start both false (`__init__` builds every room
as not cooling, not heating), and a control cycle started from any
mutually exclusive flags leaves every room's flags mutually exclusive:
every committed transition writes one flag true and the other false, or
only clears a flag. -/
theorem heating_cooling_mutex (env : CycleEnv) (init : RoomId → RoomState)
    (hinit : ∀ r, flagsMutex (init r)) :
    (∀ r, flagsMutex (initRoomStates r)) ∧
    ∀ r, flagsMutex ((controlCycle env init).states r) := by
  constructor
  · intro r
    rfl
  · intro r
    obtain ⟨m, hm, hcyc⟩ := cycle_states_char env init r
    rw [hcyc, roomStep_eq]
    cases firedRule env r (m.states r) with
    | none =>
      show flagsMutex (m.states r)
      rw [hm]
      exact hinit r
    | some rule =>
      dsimp only
      by_cases hok : (issueAll env m (ruleCmds rule r)).2 = true
      · rw [if_pos hok]
        cases rule with
        | manualHeat => rfl
        | manualCool => rfl
        | coolOn => rfl
        | coolOff => rfl
        | heatOn => rfl
        | heatOff => exact Bool.and_false _
      · rw [if_neg hok]
        show flagsMutex (m.states r)
        rw [hm]
        exact hinit r

/-- C2 witness: the invariant holds concretely for room1 after a cycle
of `envManual` from the all-false initial flags. -/
theorem heating_cooling_mutex_witness :
    flagsMutex ((controlCycle envManual initRoomStates).states
      RoomId.room1) :=
  (heating_cooling_mutex envManual initRoomStates (fun _ => rfl)).2
    RoomId.room1

/-- C3 counterexample: room1 has `min_temp = 20 < 21 = max_temp`, no
manual flags, a reading of 19 °C, and is Cooling.  The reading is above
`max_temp - 3 = 18`, yet the cycle takes the room out of Cooling: the
heat-on branch (19 < 20, not heating) fires and commits
cooling = false.  The claimed hysteresis property fails when the
setpoint band is narrower than the 3 °C hysteresis margin. -/
theorem hysteresis_band_cex :
    (envNarrowBand.settings RoomId.room1).manual_heat = false ∧
    (envNarrowBand.settings RoomId.room1).manual_cool = false ∧
    envNarrowBand.temps RoomId.room1 = some 19 ∧
    (initCooling RoomId.room1).cooling = true ∧
    (19 : ℚ) >
      (((envNarrowBand.settings RoomId.room1).max_temp - 3 : Int) : ℚ) ∧
    ((controlCycle envNarrowBand initCooling).states
        RoomId.room1).cooling = false := by
  decide

/-- C3 (amended): for a room with both manual flags clear, a reading
present, and a setpoint band at least as wide as the hysteresis margin
(`min_temp + 3 ≤ max_temp`), a Cooling room stays Cooling while the
reading is above `max_temp - 3`, and a Heating room stays Heating while
the reading is below `min_temp + 3`. -/
theorem hysteresis_band (env : CycleEnv) (init : RoomId → RoomState)
    (room : RoomId) (t : ℚ)
    (hmh : (env.settings room).manual_heat = false)
    (hmc : (env.settings room).manual_cool = false)
    (ht : env.temps room = some t)
    (hband :
      (env.settings room).min_temp + 3 ≤ (env.settings room).max_temp) :
    ((init room).cooling = true →
      t > (((env.settings room).max_temp - 3 : Int) : ℚ) →
      ((controlCycle env init).states room).cooling = true) ∧
    ((init room).heating = true →
      t < (((env.settings room).min_temp + 3 : Int) : ℚ) →
      ((controlCycle env init).states room).heating = true) := by
  obtain ⟨m, hm, hcyc⟩ := cycle_states_char env init room
  constructor
  · intro hcool ht'
    rw [hcyc, roomStep_eq]
    cases hfr : firedRule env room (m.states room) with
    | none =>
      show (m.states room).cooling = true
      rw [hm]
      exact hcool
    | some rule =>
      unfold firedRule at hfr
      rw [ht] at hfr
      dsimp only at hfr
      simp only [hmh, hmc, Bool.false_eq_true, if_false] at hfr
      split_ifs at hfr with g1 g2 g3 g4
      · rw [hm, hcool] at g1
        exact Bool.noConfusion g1.2
      · exact absurd g2.1 (not_le.mpr ht')
      · have hcast : ((env.settings room).min_temp : ℚ) ≤
            (((env.settings room).max_temp - 3 : Int) : ℚ) :=
          Int.cast_le.mpr (by omega)
        exact absurd g3.1 (by push_neg; linarith)
      · injection hfr with hfr'
        subst hfr'
        dsimp only
        by_cases hok :
            (issueAll env m (ruleCmds .heatOff room)).2 = true
        · rw [if_pos hok]
          show (m.states room).cooling = true
          rw [hm]
          exact hcool
        · rw [if_neg hok]
          show (m.states room).cooling = true
          rw [hm]
          exact hcool
  · intro hheat ht'
    rw [hcyc, roomStep_eq]
    cases hfr : firedRule env room (m.states room) with
    | none =>
      show (m.states room).heating = true
      rw [hm]
      exact hheat
    | some rule =>
      unfold firedRule at hfr
      rw [ht] at hfr
      dsimp only at hfr
      simp only [hmh, hmc, Bool.false_eq_true, if_false] at hfr
      split_ifs at hfr with g1 g2 g3 g4
      · have hcast : (((env.settings room).min_temp + 3 : Int) : ℚ) ≤
            ((env.settings room).max_temp : ℚ) :=
          Int.cast_le.mpr (by omega)
        exact absurd g1.1 (by push_neg; linarith)
      · injection hfr with hfr'
        subst hfr'
        dsimp only
        by_cases hok :
            (issueAll env m (ruleCmds .coolOff room)).2 = true
        · rw [if_pos hok]
          show (m.states room).heating = true
          rw [hm]
          exact hheat
        · rw [if_neg hok]
          show (m.states room).heating = true
          rw [hm]
          exact hheat
      · rw [hm, hheat] at g3
        exact Bool.noConfusion g3.2
      · exact absurd g4.1 (not_le.mpr ht')

/-- C3 witness: room1 at default setpoints (20-25), reading 24 °C inside
the band, Cooling at the start of the cycle, stays Cooling. -/
theorem hysteresis_band_witness :
    ((controlCycle envInBand initCooling).states RoomId.room1).cooling =
      true :=
  (hysteresis_band envInBand initCooling RoomId.room1 24 rfl rfl rfl
    (by decide)).1 rfl (by decide)

/-- C4: on every control cycle, AC is commanded OFF iff no room's
cooling flag is set at the end of the per-room evaluation, and
HeaterVent and Supply are each commanded OFF iff no room's heating flag
is set.  The iff holds for every environment and starting flags, i.e.
the consolidation runs unconditionally every cycle, even when no room
changed state. -/
theorem consolidation_iff (env : CycleEnv) (init : RoomId → RoomState) :
    ((Relay.ac, false) ∈ (controlCycle env init).log ↔
      ∀ r, ((controlCycle env init).states r).cooling = false) ∧
    ((Relay.heater_vent, false) ∈ (controlCycle env init).log ↔
      ∀ r, ((controlCycle env init).states r).heating = false) ∧
    ((Relay.supply, false) ∈ (controlCycle env init).log ↔
      ∀ r, ((controlCycle env init).states r).heating = false) := by
  have hlog := controlCycle_log env init
  have hstates := controlCycle_states env init
  set L := foldRooms env ROOMS ⟨init, 0, []⟩ with hLdef
  have hpred : ∀ c ∈ L.log, offOnlyRoomRelay c :=
    foldRooms_log_pred env ROOMS ⟨init, 0, []⟩
      (fun c hc => absurd hc (List.not_mem_nil c))
  have hacL : (Relay.ac, false) ∉ L.log := by
    intro hmem
    obtain ⟨r, hr⟩ := hpred _ hmem rfl
    exact Relay.noConfusion hr
  have hhvL : (Relay.heater_vent, false) ∉ L.log := by
    intro hmem
    obtain ⟨r, hr⟩ := hpred _ hmem rfl
    exact Relay.noConfusion hr
  have hsupL : (Relay.supply, false) ∉ L.log := by
    intro hmem
    obtain ⟨r, hr⟩ := hpred _ hmem rfl
    exact Relay.noConfusion hr
  have hC : ROOMS.all (fun r => !(L.states r).cooling) = true ↔
      ∀ r, (L.states r).cooling = false := by
    rw [all_ROOMS_iff]
    constructor
    · intro h r
      simpa using h r
    · intro h r
      simp [h r]
  have hH : ROOMS.all (fun r => !(L.states r).heating) = true ↔
      ∀ r, (L.states r).heating = false := by
    rw [all_ROOMS_iff]
    constructor
    · intro h r
      simpa using h r
    · intro h r
      simp [h r]
  rw [hstates, hlog]
  refine ⟨?_, ?_, ?_⟩
  · by_cases hcnd : ROOMS.all (fun r => !(L.states r).cooling) = true
    · refine iff_of_true ?_ (hC.mp hcnd)
      rw [if_pos hcnd]
      simp
    · refine iff_of_false ?_ (fun hall => hcnd (hC.mpr hall))
      rw [if_neg hcnd]
      intro hmem
      simp only [List.append_nil] at hmem
      rcases List.mem_append.mp hmem with hmem | hmem
      · exact hacL hmem
      · split_ifs at hmem <;> simp at hmem
  · by_cases hhnd : ROOMS.all (fun r => !(L.states r).heating) = true
    · refine iff_of_true ?_ (hH.mp hhnd)
      rw [if_pos hhnd]
      simp
    · refine iff_of_false ?_ (fun hall => hhnd (hH.mpr hall))
      rw [if_neg hhnd]
      intro hmem
      simp only [List.append_nil] at hmem
      rcases List.mem_append.mp hmem with hmem | hmem
      · exact hhvL hmem
      · split_ifs at hmem <;> simp at hmem
  · by_cases hhnd : ROOMS.all (fun r => !(L.states r).heating) = true
    · refine iff_of_true ?_ (hH.mp hhnd)
      rw [if_pos hhnd]
      simp
    · refine iff_of_false ?_ (fun hall => hhnd (hH.mpr hall))
      rw [if_neg hhnd]
      intro hmem
      simp only [List.append_nil] at hmem
      rcases List.mem_append.mp hmem with hmem | hmem
      · exact hsupL hmem
      · split_ifs at hmem <;> simp at hmem

/-- C5: a room's flags change only if every relay command of the fired
rule's action sequence succeeded; if any command of the sequence fails,
the flags are exactly as before and — the inputs being equal — the same
rule fires again on the next evaluation. -/
theorem relay_failure_atomicity (env : CycleEnv) (room : RoomId)
    (m : CycleM) (rule : Rule)
    (hr : firedRule env room (m.states room) = some rule) :
    ((roomStep env room m).2 ≠ m.states room →
      ∀ i, i < (ruleCmds rule room).length →
        env.relayOk (m.calls + i) = true) ∧
    ((∃ i, i < (ruleCmds rule room).length ∧
        env.relayOk (m.calls + i) = false) →
      (roomStep env room m).2 = m.states room ∧
      firedRule env room ((roomStep env room m).2) = some rule) := by
  rw [roomStep_eq, hr]
  dsimp only
  constructor
  · intro hne i hi
    by_cases hok : (issueAll env m (ruleCmds rule room)).2 = true
    · exact (issueAll_ok_iff env (ruleCmds rule room) m).mp hok i hi
    · rw [if_neg hok] at hne
      exact absurd rfl hne
  · rintro ⟨i, hi, hfail⟩
    have hok : ¬ (issueAll env m (ruleCmds rule room)).2 = true := by
      intro hok
      have hcall := (issueAll_ok_iff env (ruleCmds rule room) m).mp hok i hi
      rw [hfail] at hcall
      exact Bool.noConfusion hcall
    rw [if_neg hok]
    exact ⟨rfl, hr⟩

/-- C5 witness: room1 at default setpoints with a reading of 30 °C fires
the automatic cool-on rule, every relay command fails, and the room's
flags stay exactly as before with the same rule selected again. -/
theorem relay_failure_atomicity_witness :
    (roomStep envRelayFail RoomId.room1 mFresh).2 =
      mFresh.states RoomId.room1 ∧
    firedRule envRelayFail RoomId.room1
      ((roomStep envRelayFail RoomId.room1 mFresh).2) = some .coolOn :=
  (relay_failure_atomicity envRelayFail RoomId.room1 mFresh .coolOn
    (by decide)).2 ⟨0, by decide, rfl⟩

/-- C6 counterexample: a room at min 24 / max 25 satisfies
`min_temp < max_temp`, but a single accepted min-increment edit makes
min = max = 25: the settings screen applies `+= 1` with no validation,
so the invariant is not preserved by every edit. -/
theorem setpoint_edit_cex :
    ((⟨24, 25, false, false⟩ : RoomConfig).min_temp <
      (⟨24, 25, false, false⟩ : RoomConfig).max_temp) ∧
    ¬ ((applyEdit .incMin ⟨24, 25, false, false⟩).min_temp <
      (applyEdit .incMin ⟨24, 25, false, false⟩).max_temp) := by
  decide

/-- C6 (amended): setpoint edits are applied with no validation: each
edit changes exactly the targeted field by 1 and leaves the other
setpoint unchanged.  Consequently `min_temp < max_temp` is preserved by
the min-decrement and max-increment edits, while a min-increment or
max-decrement can violate it (see the counterexample). -/
theorem setpoint_edit_no_validation (c : RoomConfig)
    (h : c.min_temp < c.max_temp) :
    ((applyEdit .incMin c).min_temp = c.min_temp + 1 ∧
      (applyEdit .incMin c).max_temp = c.max_temp) ∧
    ((applyEdit .decMax c).max_temp = c.max_temp - 1 ∧
      (applyEdit .decMax c).min_temp = c.min_temp) ∧
    ((applyEdit .decMin c).min_temp < (applyEdit .decMin c).max_temp) ∧
    ((applyEdit .incMax c).min_temp < (applyEdit .incMax c).max_temp) := by
  refine ⟨⟨rfl, rfl⟩, ⟨rfl, rfl⟩, ?_, ?_⟩
  · show c.min_temp - 1 < c.max_temp
    omega
  · show c.min_temp < c.max_temp + 1
    omega

/-- C6 witness: at the default 20-25 configuration, the min-decrement
edit preserves the invariant. -/
theorem setpoint_edit_no_validation_witness :
    (applyEdit .decMin ⟨20, 25, false, false⟩).min_temp <
      (applyEdit .decMin ⟨20, 25, false, false⟩).max_temp :=
  (setpoint_edit_no_validation ⟨20, 25, false, false⟩ (by decide)).2.2.1

/-- C7 counterexample: a successfully parsed configuration containing
only room1 is returned as-is by `load_settings`: room2 — present in the
built-in room list — is not filled with defaults (the room is simply
absent, and later `settings[room]` accesses would fail). -/
theorem load_settings_no_fill_cex :
    loadSettings (some partialLoaded) RoomId.room2 = none := rfl

/-- C7 (amended): a load failure (missing or malformed file) yields the
built-in defaults — min 20, max 25, manual flags clear — for every room
without raising to the caller; a successful load is returned as-is, with
no default-filling of rooms absent from the file. -/
theorem load_settings_behavior :
    (∀ r, loadSettings none r = some ⟨20, 25, false, false⟩) ∧
    (∀ s, loadSettings (some s) = s) :=
  ⟨fun _ => rfl, fun _ => rfl⟩

/-- C8 counterexample: when `save_settings` fails during cleanup, the
exception propagates (the call has no handler) and no relay is commanded
OFF: the save failure does block the rest of the shutdown sequence. -/
theorem shutdown_save_failure_cex : shutdownRelayCmds false = none := rfl

/-- C8 (amended): on a normal exit of the main loop, the configuration
save is attempted first and, when it succeeds, every actuator (all
shared and per-room relays) is commanded OFF; a save failure raises out
of the cleanup and no actuator is commanded OFF. -/
theorem shutdown_behavior :
    (∀ r : Relay, (r, false) ∈ (shutdownRelayCmds true).getD []) ∧
    shutdownRelayCmds false = none := by
  constructor
  · intro r
    show (r, false) ∈ allRelays.map (fun x => (x, false))
    cases r with
    | ac => decide
    | heater_vent => decide
    | supply => decide
    | roomRelay rr => cases rr <;> decide
  · rfl

/-- C9: the readiness-retry loop of `read_temp` has no bound: on a
sensor that always answers but never confirms the `YES` readiness flag,
the loop is still retrying after every number of reads (sleeping 0.2 s
per retry, so the total retry time grows without bound) and never
returns the unavailable marker — the code blocks indefinitely instead of
bounding its total retry time. -/
theorem read_temp_unbounded_retry :
    ∀ fuel, read_temp stubbornSeq fuel = none := by
  have haux : ∀ fuel k, readTempAux stubbornSeq k fuel = none := by
    intro fuel
    induction fuel with
    | zero => intro k; rfl
    | succ n ih =>
      intro k
      have hw : w1Ready ["crc=d8 NO", "t=21000"] = false := by decide
      simp only [readTempAux, stubbornSeq, hw, Bool.false_eq_true,
        if_false]
      exact ih (k + 1)
  intro fuel
  exact haux fuel 0

end Climate
